import Mathlib

/-!
Verification of the melitusgym food-resolution subsystem.

Shallow embedding of:
- `backend/app/services/nutrition_calculator.py` (portion calculator),
- `backend/app/services/etl_taco.py` (header mapping, numeric parsing),
- `backend/app/services/taco_dynamic_loader.py` (cache, CSV/XLSX scan,
  upsert, tiered search),
- `backend/app/services/tbca_connector.py` (online fallback).

Modelling conventions:
- Python floats are modelled as rationals (ℚ); `round(x, 2)` is modelled as
  rounding `100*x` to the nearest integer (Mathlib `round`, half away from
  floor; Python uses banker's rounding, which differs only at exact ties).
- Python strings are modelled as `String` / `List Char`; the NFKD + ASCII
  normalisation of `_clean_text` is modelled by folding Latin accented
  characters to their base ASCII letter and dropping other non-ASCII
  characters, which is what NFKD decomposition followed by ASCII `ignore`
  encoding produces on this data.
- Wall-clock time is an explicit integer parameter; each call to the
  resolver happens at one instant.
- Database sessions are modelled as explicit list states; SQL `ILIKE
  '%term%'` is modelled as case-insensitive substring containment
  (terms containing SQL wildcard characters are outside the model).
-/

namespace Melitus

/-! ## Text utilities (`_clean_text`, `str.strip`, `str.lower`) -/

/-- Whitespace characters recognised by Python `str.strip()` (the subset
that occurs in this data). -/
def isSpaceChar (c : Char) : Bool :=
  c = ' ' || c = '\t' || c = '\n' || c = '\r'

/-- `str.strip()`: drop leading and trailing whitespace. -/
def trimList (l : List Char) : List Char :=
  ((l.dropWhile isSpaceChar).reverse.dropWhile isSpaceChar).reverse

/-- NFKD decomposition followed by ASCII-with-ignore encoding, modelled
characterwise: ASCII characters stay, Latin accented letters fold to their
base letter, all other characters are dropped. -/
def foldChar (c : Char) : List Char :=
  if c.toNat < 128 then [c]
  else if c ∈ ['á', 'à', 'â', 'ã', 'ä'] then ['a']
  else if c ∈ ['Á', 'À', 'Â', 'Ã', 'Ä'] then ['A']
  else if c ∈ ['é', 'è', 'ê', 'ë'] then ['e']
  else if c ∈ ['É', 'È', 'Ê', 'Ë'] then ['E']
  else if c ∈ ['í', 'ì', 'î', 'ï'] then ['i']
  else if c ∈ ['Í', 'Ì', 'Î', 'Ï'] then ['I']
  else if c ∈ ['ó', 'ò', 'ô', 'õ', 'ö'] then ['o']
  else if c ∈ ['Ó', 'Ò', 'Ô', 'Õ', 'Ö'] then ['O']
  else if c ∈ ['ú', 'ù', 'û', 'ü'] then ['u']
  else if c ∈ ['Ú', 'Ù', 'Û', 'Ü'] then ['U']
  else if c = 'ç' then ['c']
  else if c = 'Ç' then ['C']
  else []

/-- `_clean_text` (etl_taco.py / taco_dynamic_loader.py): NFKD-normalise,
encode to ASCII ignoring the rest, strip, lowercase. -/
def cleanText (s : String) : List Char :=
  (trimList (s.toList.flatMap foldChar)).map Char.toLower

/-- Case-folding only (used to model SQL `ILIKE`). -/
def lowerList (s : String) : List Char :=
  s.toList.map Char.toLower

/-- Is `p` a prefix of `l` (Boolean, by direct recursion)? -/
def isPrefOf : List Char → List Char → Bool
  | [], _ => true
  | _ :: _, [] => false
  | a :: as, b :: bs => a = b && isPrefOf as bs

/-- Python substring containment `needle in hay` on character lists. -/
def isSubOf (needle : List Char) : List Char → Bool
  | [] => needle.isEmpty
  | c :: t => isPrefOf needle (c :: t) || isSubOf needle t

/-! ## Numeric parsing (`_parse_float` from etl_taco.py)

Python `float()` on the decimal strings that occur in this dataset:
an optional sign, digits, optionally a decimal point. (The exotic float
syntaxes — exponents, inf/nan, underscores — do not occur in the data
and are outside the model.) -/

/-- Digits-only string to a natural number; `none` if a non-digit occurs. -/
def digitsToNat : List Char → Option ℕ
  | [] => some 0
  | c :: t =>
    if c.isDigit then
      (digitsToNat t).map (fun n => (c.toNat - '0'.toNat) * 10 ^ t.length + n)
    else none

/-- Parse an unsigned decimal literal `digits[.digits]` (at least one digit
overall, as Python `float` requires). -/
def parseUnsigned (l : List Char) : Option ℚ :=
  match l.splitOn '.' with
  | [intPart] =>
    if intPart.isEmpty then none
    else (digitsToNat intPart).map (fun n => (n : ℚ))
  | [intPart, fracPart] =>
    if intPart.isEmpty && fracPart.isEmpty then none
    else
      match digitsToNat intPart, digitsToNat fracPart with
      | some n, some f => some ((n : ℚ) + (f : ℚ) / 10 ^ fracPart.length)
      | _, _ => none
  | _ => none

/-- Python `float(s)` on plain decimal strings (after strip). -/
def parseDecimal (l : List Char) : Option ℚ :=
  match l with
  | '-' :: rest => (parseUnsigned rest).map (fun q => -q)
  | '+' :: rest => parseUnsigned rest
  | _ => parseUnsigned l

/-- `_parse_float` (etl_taco.py) on a string cell: replace comma with dot,
strip, treat "", "na", "nd", "n/a", "-" as missing, otherwise parse. -/
def parseFloatStr (s : String) : Option ℚ :=
  let v := trimList (s.toList.map (fun c => if c = ',' then '.' else c))
  let lv := v.map Char.toLower
  if v = [] || lv = ['n', 'a'] || lv = ['n', 'd'] || lv = ['n', '/', 'a'] || lv = ['-'] then
    none
  else parseDecimal v

/-- `_parse_float` on an optional cell (`None` stays missing). -/
def parseFloatCell (c : Option String) : Option ℚ :=
  c.bind parseFloatStr

/-! ## Portion calculator (`nutrition_calculator.py`) -/

/-- The `unit_conversions` table of `_convert_to_grams` (grams per unit). -/
def unitConversions : List (String × ℚ) :=
  [("g", 1), ("gram", 1), ("grams", 1), ("gramas", 1),
   ("kg", 1000), ("kilogram", 1000), ("kilograms", 1000),
   ("quilograma", 1000), ("quilogramas", 1000),
   ("mg", 1 / 1000), ("milligram", 1 / 1000), ("milligrams", 1 / 1000),
   ("miligramas", 1 / 1000),
   ("oz", 283495 / 10000), ("ounce", 283495 / 10000), ("ounces", 283495 / 10000),
   ("lb", 453592 / 1000), ("pound", 453592 / 1000), ("pounds", 453592 / 1000),
   ("ml", 1), ("milliliter", 1), ("milliliters", 1),
   ("mililitro", 1), ("mililitros", 1),
   ("l", 1000), ("liter", 1000), ("liters", 1000), ("litro", 1000), ("litros", 1000),
   ("cup", 240), ("cups", 240), ("xícara", 240), ("xícaras", 240),
   ("tbsp", 15), ("tablespoon", 15), ("tablespoons", 15), ("colher de sopa", 15),
   ("tsp", 5), ("teaspoon", 5), ("teaspoons", 5), ("colher de chá", 5)]

/-- First value bound to a key in an association list (Python `dict.get`). -/
def lookupTable (k : List Char) : List (String × ℚ) → Option ℚ
  | [] => none
  | (k0, v) :: t => if k0.toList = k then some v else lookupTable k t

/-- `unit.lower().strip()` followed by removal of digit characters,
as in `_convert_to_grams` (e.g. "100g" becomes "g"). -/
def cleanUnit (unit : String) : List Char :=
  (trimList (unit.toList.map Char.toLower)).filter (fun c => !c.isDigit)

/-- `_convert_to_grams(value, unit)`: multiply by the table factor of the
digit-stripped unit, defaulting to 1 when the unit is not in the table. -/
def convertToGrams (value : ℚ) (unit : String) : ℚ :=
  value * ((lookupTable (cleanUnit unit) unitConversions).getD 1)

/-- `_calculate_conversion_factor(portion_value, portion_unit, base_unit)`:
grams of the portion over grams of one base unit, with the exact string
"100g" special-cased to 100 grams. -/
def calcConversionFactor (portionValue : ℚ) (portionUnit baseUnit : String) : ℚ :=
  let portionGrams := convertToGrams portionValue portionUnit
  let baseGrams := if baseUnit = "100g" then 100 else convertToGrams 1 baseUnit
  portionGrams / baseGrams

/-- `validate_portion_input(value, unit)`: non-positive values and falsy
(empty) unit strings are rejected; the trailing `try` around
`_convert_to_grams` can never fail (it is a total lookup with default 1),
so every other input is accepted. -/
def validatePortionInput (value : ℚ) (unit : String) : Bool :=
  if value ≤ 0 then false
  else if unit = "" then false
  else
    let _probe := convertToGrams 1 unit
    true

/-- Python `round(x, 2)` modelled on rationals: nearest multiple of 1/100
(Mathlib `round`; Python breaks exact ties to even, which never occurs in
the statements below). -/
def round2 (x : ℚ) : ℚ :=
  (round (100 * x) : ℤ) / 100

/-- The fixed nutrient key set of a per-100g nutrient map
(spec §3 NormalizedItem / §6 output contract). -/
structure Nutrients where
  energy_kcal : Option ℚ
  energy_kj : Option ℚ
  carbohydrates : Option ℚ
  proteins : Option ℚ
  fat : Option ℚ
  fiber : Option ℚ
  sugars : Option ℚ
  sodium : Option ℚ
  deriving DecidableEq, Repr

/-- Python truthiness of an optional float (`None` and `0.0` are falsy). -/
def truthyQ : Option ℚ → Bool
  | none => false
  | some x => x ≠ 0

/-- One scaled field: multiply by the factor and round to 2 decimals,
`None` stays `None`. -/
def scaleField (factor : ℚ) (v : Option ℚ) : Option ℚ :=
  v.map (fun x => round2 (x * factor))

/-- The kJ-to-kcal constant 4.184 as a rational. -/
def kcalPerKj : ℚ := 4184 / 1000

/-- The nutrient map computed by `calculate_portion_nutrition`: every field
scaled by the conversion factor, then `energy_kcal` derived from
`energy_kj` when the scaled kJ is truthy and the scaled kcal is not. -/
def calculatePortionNutrients (base : Nutrients) (portionValue : ℚ)
    (portionUnit baseUnit : String) : Nutrients :=
  let factor := calcConversionFactor portionValue portionUnit baseUnit
  let scaled : Nutrients :=
    { energy_kcal := scaleField factor base.energy_kcal
      energy_kj := scaleField factor base.energy_kj
      carbohydrates := scaleField factor base.carbohydrates
      proteins := scaleField factor base.proteins
      fat := scaleField factor base.fat
      fiber := scaleField factor base.fiber
      sugars := scaleField factor base.sugars
      sodium := scaleField factor base.sodium }
  if truthyQ scaled.energy_kj && !truthyQ scaled.energy_kcal then
    { scaled with
      energy_kcal := (scaled.energy_kj).map (fun kj => round2 (kj / kcalPerKj)) }
  else scaled

/-! ## Local food store (`taco_foods` table, `_upsert_db_items`) -/

/-- One row of the `taco_foods` table (model `TACOFood`, without the
surrogate id), which is also the dict shape produced by the scanners. -/
structure FoodRow where
  name_pt : String
  category_pt : Option String
  energy_kcal_100g : Option ℚ
  energy_kj_100g : Option ℚ
  carbohydrates_100g : Option ℚ
  proteins_100g : Option ℚ
  fat_100g : Option ℚ
  fiber_100g : Option ℚ
  sugars_100g : Option ℚ
  sodium_mg_100g : Option ℚ
  glycemic_index : Option ℚ
  deriving DecidableEq, Repr

/-- Does a row carry this exact `name_pt` (the upsert's WHERE clause)? -/
def nameMatches (n : String) (r : FoodRow) : Bool :=
  r.name_pt = n

/-- Overwrite every nutrient field of `existing` with the incoming row's
values (the update branch of `_upsert_db_items`, which assigns all ten
fields unconditionally, `None` included). -/
def overwriteFields (existing incoming : FoodRow) : FoodRow :=
  { incoming with name_pt := existing.name_pt }

/-- Update the first row whose name matches, leaving the rest unchanged
(SQLAlchemy `.first()` on the unique-name select). -/
def updateFirst (n : String) (incoming : FoodRow) : List FoodRow → List FoodRow
  | [] => []
  | r :: rs =>
    if nameMatches n r then overwriteFields r incoming :: rs
    else r :: updateFirst n incoming rs

/-- One iteration of `_upsert_db_items`: skip falsy names, update the
existing row with the same exact `name_pt`, otherwise insert a new row. -/
def upsertRow (db : List FoodRow) (row : FoodRow) : List FoodRow :=
  if row.name_pt = "" then db
  else if (db.find? (nameMatches row.name_pt)).isSome then
    updateFirst row.name_pt row db
  else db ++ [row]

/-- `_upsert_db_items`: fold the incoming rows into the store. -/
def upsertItems (db : List FoodRow) (rows : List FoodRow) : List FoodRow :=
  rows.foldl upsertRow db

/-- The store's uniqueness invariant on exact names (the `unique` column
constraint of `taco_foods.name_pt`). -/
def NamesUnique (db : List FoodRow) : Prop :=
  (db.map FoodRow.name_pt).Nodup

/-- Uniqueness up to `_clean_text` normalisation (the spec's stated
invariant: case/accent-insensitive, stripped names). -/
def NormNamesUnique (db : List FoodRow) : Prop :=
  (db.map (fun r => cleanText r.name_pt)).Nodup

/-! ## Bounded TTL cache (`InMemoryCache`) -/

/-- The normalized item shape produced by `_normalize_item` (constant
fields such as `id`/`brands` omitted; `source` is always
"taco_dynamic"). -/
structure NormItem where
  name : Option String
  category : Option String
  nutrients : Nutrients
  glycemic_index : Option ℚ
  deriving DecidableEq, Repr

/-- `_normalize_item` on a scanned/stored row. -/
def normalizeItem (r : FoodRow) : NormItem :=
  { name := some r.name_pt
    category := r.category_pt
    nutrients :=
      { energy_kcal := r.energy_kcal_100g
        energy_kj := r.energy_kj_100g
        carbohydrates := r.carbohydrates_100g
        proteins := r.proteins_100g
        fat := r.fat_100g
        fiber := r.fiber_100g
        sugars := r.sugars_100g
        sodium := r.sodium_mg_100g }
    glycemic_index := r.glycemic_index }

/-- The search-result dict (`search_time_ms` is timing metadata; calls are
modelled at a single instant, so it is constantly 0). -/
structure SearchResult where
  term : String
  sources : List String
  items : List NormItem
  total_found : ℕ
  search_time_ms : ℚ
  deriving DecidableEq, Repr

/-- A cache slot: the stored value and its expiry instant. -/
structure CacheEntry where
  value : SearchResult
  expiresAt : ℤ
  deriving DecidableEq, Repr

/-- The cache dict as an association list in insertion order. -/
structure Cache where
  ttl : ℤ
  maxItems : ℕ
  store : List (String × CacheEntry)
  deriving DecidableEq, Repr

/-- `dict.get`: first entry bound to the key. -/
def lookupA : List (String × CacheEntry) → String → Option CacheEntry
  | [], _ => none
  | (k0, e) :: t, k => if k0 = k then some e else lookupA t k

/-- `dict.pop(key)`: remove the entry bound to the key. -/
def eraseKey : List (String × CacheEntry) → String → List (String × CacheEntry)
  | [], _ => []
  | (k0, e) :: t, k => if k0 = k then t else (k0, e) :: eraseKey t k

/-- Replace the first entry bound to the key. -/
def replaceFirstA : List (String × CacheEntry) → String → CacheEntry →
    List (String × CacheEntry)
  | [], _, _ => []
  | (k0, e0) :: t, k, e =>
    if k0 = k then (k0, e) :: t else (k0, e0) :: replaceFirstA t k e

/-- `dict[key] = value`: overwrite in place if present, else append. -/
def insertA (s : List (String × CacheEntry)) (k : String) (e : CacheEntry) :
    List (String × CacheEntry) :=
  if (lookupA s k).isSome then replaceFirstA s k e else s ++ [(k, e)]

/-- The eviction scan of `InMemoryCache.set`: the first key whose expiry is
strictly smallest. -/
def minExpKey (s : List (String × CacheEntry)) : Option String :=
  (s.foldl
    (fun best p =>
      match best with
      | none => some p
      | some q => if p.2.expiresAt < q.2.expiresAt then some p else some q)
    none).map Prod.fst

/-- `InMemoryCache.get(key)` at instant `now`: a miss if absent or past
expiry (expired entries are popped); the possibly-updated store is
returned alongside. -/
def cacheGet (c : Cache) (now : ℤ) (k : String) : Option SearchResult × Cache :=
  match lookupA c.store k with
  | none => (none, c)
  | some e =>
    if now > e.expiresAt then (none, { c with store := eraseKey c.store k })
    else (some e.value, c)

/-- `InMemoryCache.set(key, value)` at instant `now`: evict the
soonest-to-expire entry when full (skipping the falsy empty key, as the
Python truthiness test does), then bind the key to the value with expiry
`now + ttl`. -/
def cacheSet (c : Cache) (now : ℤ) (k : String) (v : SearchResult) : Cache :=
  let s :=
    if c.maxItems ≤ c.store.length then
      match minExpKey c.store with
      | none => c.store
      | some k0 => if k0 = "" then c.store else eraseKey c.store k0
    else c.store
  { c with store := insertA s k (CacheEntry.mk v (now + c.ttl)) }

/-! ## Header mapping (`_map_headers` from etl_taco.py) -/

/-- Python `or` on optional column indices: `None` and the falsy index `0`
fall through to the right operand. -/
def pyOr (a b : Option ℕ) : Option ℕ :=
  match a with
  | some (n + 1) => some (n + 1)
  | _ => b

/-- First index satisfying the test. -/
def findIdxA (p : List Char → Bool) : List (List Char) → Option ℕ
  | [] => none
  | h :: t => if p h then some 0 else (findIdxA p t).map (· + 1)

/-- The column map built by `_map_headers` (one optional index per
canonical field). -/
structure ColMap where
  name_pt : Option ℕ
  category_pt : Option ℕ
  energy_kcal_100g : Option ℕ
  energy_kj_100g : Option ℕ
  carbohydrates_100g : Option ℕ
  proteins_100g : Option ℕ
  fat_100g : Option ℕ
  fiber_100g : Option ℕ
  sugars_100g : Option ℕ
  sodium_mg_100g : Option ℕ
  glycemic_index : Option ℕ
  deriving DecidableEq, Repr

/-- `_map_headers(headers)`: normalise every header cell, then look each
canonical field up by exact match or keyword containment, chaining
alternatives with Python `or`. -/
def mapHeaders (headers : List String) : ColMap :=
  let ns := headers.map cleanText
  let fe := fun (t : String) => findIdxA (fun h => h = cleanText t) ns
  let f1 := fun (k : String) => findIdxA (fun h => isSubOf k.toList h) ns
  let f2 := fun (k1 k2 : String) =>
    findIdxA (fun h => isSubOf k1.toList h && isSubOf k2.toList h) ns
  { name_pt :=
      pyOr (fe "name_pt") (pyOr (f1 "alimento") (pyOr (f1 "descricao") (f1 "nome")))
    category_pt := pyOr (fe "category_pt") (pyOr (f1 "grupo") (f1 "categoria"))
    energy_kcal_100g :=
      pyOr (fe "energy_kcal_100g") (pyOr (f2 "energia" "kcal") (f1 "kcal"))
    energy_kj_100g :=
      pyOr (fe "energy_kj_100g") (pyOr (f2 "energia" "kj") (f1 "kj"))
    carbohydrates_100g :=
      pyOr (fe "carbohydrates_100g") (pyOr (f2 "carbo" "g") (f1 "carboidratos"))
    proteins_100g := pyOr (fe "proteins_100g") (f1 "proteina")
    fat_100g := pyOr (fe "fat_100g") (pyOr (f1 "lipidio") (f1 "gordura"))
    fiber_100g := pyOr (fe "fiber_100g") (f1 "fibra")
    sugars_100g :=
      pyOr (fe "sugars_100g")
        (pyOr (f1 "acucar") (pyOr (f1 "açucar") (f1 "sacarose")))
    sodium_mg_100g :=
      pyOr (fe "sodium_mg_100g") (pyOr (f1 "sodio") (f1 "sódio"))
    glycemic_index :=
      pyOr (fe "glycemic_index") (pyOr (f2 "indice" "glicemico") (f1 "ig")) }

/-- Number of canonical fields a column map resolves (the spec's
header-candidate score). -/
def mappedCount (m : ColMap) : ℕ :=
  [m.name_pt, m.category_pt, m.energy_kcal_100g, m.energy_kj_100g,
   m.carbohydrates_100g, m.proteins_100g, m.fat_100g, m.fiber_100g,
   m.sugars_100g, m.sodium_mg_100g,
   m.glycemic_index].countP Option.isSome

/-! ## Dataset scanners (`_scan_csv`, `_scan_xlsx`)

Cells are `Option String`: a CSV cell is always a string, an XLSX cell may
be `None`. A CSV row is embedded by wrapping each cell in `some`; the two
scan loops in the source are line for line the same apart from that. -/

/-- An XLSX/CSV cell is empty when it is `None` or the empty string
(Python `c in (None, "")`). -/
def cellEmpty (c : Option String) : Bool :=
  c = none || c = some ""

/-- `str(c) if c is not None else ""`. -/
def strCell (c : Option String) : String :=
  c.getD ""

/-- `get_col(key)`: `None` for unmapped columns, else the cell. -/
def getCol (row : List (Option String)) (idx : Option ℕ) : Option String :=
  idx.bind (fun i => row.getD i none)

/-- Build the scanned item dict for one matching data row. -/
def mkScanRow (cm : ColMap) (nameText : String) (row : List (Option String)) :
    FoodRow :=
  { name_pt := nameText
    category_pt :=
      match getCol row cm.category_pt with
      | some s => if s = "" then none else some s
      | none => none
    energy_kcal_100g := parseFloatCell (getCol row cm.energy_kcal_100g)
    energy_kj_100g := parseFloatCell (getCol row cm.energy_kj_100g)
    carbohydrates_100g := parseFloatCell (getCol row cm.carbohydrates_100g)
    proteins_100g := parseFloatCell (getCol row cm.proteins_100g)
    fat_100g := parseFloatCell (getCol row cm.fat_100g)
    fiber_100g := parseFloatCell (getCol row cm.fiber_100g)
    sugars_100g := parseFloatCell (getCol row cm.sugars_100g)
    sodium_mg_100g := parseFloatCell (getCol row cm.sodium_mg_100g)
    glycemic_index := parseFloatCell (getCol row cm.glycemic_index) }

/-- The shared data-row loop of `_scan_csv` / `_scan_xlsx`: skip fully
empty rows and falsy names, keep rows whose cleaned name contains the
cleaned term, and stop as soon as the accumulated count reaches the
requested page size. -/
def scanRows (cm : ColMap) (term : String) (n : ℕ) :
    List (List (Option String)) → List FoodRow → List FoodRow
  | [], acc => acc
  | row :: rest, acc =>
    if row.all cellEmpty then scanRows cm term n rest acc
    else
      match cm.name_pt with
      | none => scanRows cm term n rest acc
      | some idx =>
        let nameVal := row.getD idx none
        if cellEmpty nameVal then scanRows cm term n rest acc
        else
          let nameText := String.mk (trimList (strCell nameVal).toList)
          if !isSubOf (cleanText term) (cleanText nameText) then
            scanRows cm term n rest acc
          else
            let acc2 := acc ++ [mkScanRow cm nameText row]
            if n ≤ acc2.length then acc2 else scanRows cm term n rest acc2

/-- A parsed CSV file: the first physical line and the remaining lines. -/
structure CsvFile where
  headers : List String
  rows : List (List String)
  deriving DecidableEq, Repr

/-- `_scan_csv(term, page_size)` on the file contents. -/
def scanCsv (f : CsvFile) (term : String) (n : ℕ) : List FoodRow :=
  scanRows (mapHeaders f.headers) term n (f.rows.map (fun r => r.map some)) []

/-- Header-candidate test of `_scan_xlsx`: at least four non-empty cells
and a mapped name column. -/
def isHeaderCandidate (row : List (Option String)) : Bool :=
  4 ≤ (row.filter (fun c => !cellEmpty c)).length &&
    (mapHeaders (row.map strCell)).name_pt.isSome

/-- The 1-based header-detection loop of `_scan_xlsx` over the first 20
rows: the first candidate row wins. -/
def detectGo : List (List (Option String)) → ℕ → Option (ℕ × List String)
  | [], _ => none
  | row :: rest, i =>
    if isHeaderCandidate row then some (i, row.map strCell)
    else detectGo rest (i + 1)

/-- Header detection of `_scan_xlsx` (`ws.iter_rows(min_row=1, max_row=20)`
with `start=1`). -/
def detectHeader (rows : List (List (Option String))) : Option (ℕ × List String) :=
  detectGo (rows.take 20) 1

/-- `_scan_xlsx(term, page_size)` on the sheet rows: detect a header,
abort with zero items when none (or when the recheck of the name column
fails), else scan the rows after the header. -/
def scanXlsx (rows : List (List (Option String))) (term : String) (n : ℕ) :
    List FoodRow :=
  match detectHeader rows with
  | none => []
  | some (i, headers) =>
    let cm := mapHeaders headers
    match cm.name_pt with
    | none => []
    | some _ => scanRows cm term n (rows.drop i) []

/-! ## Resolver (`TACODynamicLoader.search`) -/

/-- The dataset file as the loader sees it: a CSV, an XLSX sheet, or
nothing usable (missing path or other extension). -/
inductive TacoFile
  | csv (f : CsvFile)
  | xlsx (rows : List (List (Option String)))
  | missing
  deriving DecidableEq, Repr

/-- The mutable state the resolver touches: the TTL cache, the food store
and the dataset file (never written). -/
structure LoaderState where
  cache : Cache
  db : List FoodRow
  file : TacoFile
  deriving DecidableEq, Repr

/-- How many store queries, file scans and upsert batches one call
performed. -/
structure Access where
  dbq : ℕ
  scans : ℕ
  ups : ℕ
  deriving DecidableEq, Repr

/-- The cache key `f"term:{_clean_text(term)}|size:{page_size}"`. -/
def searchKey (term : String) (pageSize : ℕ) : String :=
  "term:" ++ String.mk (cleanText term) ++ "|size:" ++ toString pageSize

/-- SQL `ILIKE '%term%'`: case-insensitive substring containment
(terms containing SQL wildcards are outside the model). -/
def ilikeMatch (term name : String) : Bool :=
  isSubOf (lowerList term) (lowerList name)

/-- `TACODynamicLoader.search(term, page_size)` at instant `now`:
cache, then store capped at the page size, then a file scan for the
remainder, upserting whatever the scan found, tagging the result
"taco_db" when the combined item list is non-empty and "taco_file"
otherwise, and writing the result through to the cache. -/
def search (st : LoaderState) (now : ℤ) (term : String) (pageSize : ℕ) :
    SearchResult × LoaderState × Access :=
  let key := searchKey term pageSize
  match cacheGet st.cache now key with
  | (some v, c') => (v, { st with cache := c' }, ⟨0, 0, 0⟩)
  | (none, c') =>
    let dbItems :=
      ((st.db.filter (fun r => ilikeMatch term r.name_pt)).take pageSize).map
        normalizeItem
    let scanPair :=
      if dbItems.length < pageSize then
        match st.file with
        | TacoFile.csv f => (scanCsv f term (pageSize - dbItems.length), 1)
        | TacoFile.xlsx rows => (scanXlsx rows term (pageSize - dbItems.length), 1)
        | TacoFile.missing => ([], 0)
      else ([], 0)
    let scanned := scanPair.1
    let db' := if scanned.isEmpty then st.db else upsertItems st.db scanned
    let items := dbItems ++ scanned.map normalizeItem
    let result : SearchResult :=
      { term := term
        sources := [if 0 < items.length then "taco_db" else "taco_file"]
        items := items
        total_found := items.length
        search_time_ms := 0 }
    (result, { st with cache := cacheSet c' now key result, db := db' },
      ⟨1, scanPair.2, if scanned.isEmpty then 0 else 1⟩)

/-! ## Online fallback connector (`tbca_connector.py`)

The network, the scraped HTML and the database session are outside the
program; they are modelled as oracles that either produce a parsed value
or fail with an exception (network failure, non-200 status via
`raise_for_status`, or a parse error). -/

/-- An exception reaching one of the connector's steps. -/
inductive TbcaErr
  | network
  | badStatus
  | parseFail
  deriving DecidableEq, Repr

/-- One row of the parsed search listing of `_search_list`. -/
structure TbcaListing where
  id : String
  code : String
  name : String
  url : String
  deriving DecidableEq, Repr

/-- The nutrient dict parsed from one detail page by `_fetch_details`. -/
structure TbcaNutrients where
  energy_kcal : Option ℚ
  proteins_100g : Option ℚ
  carbohydrates_100g : Option ℚ
  fiber_100g : Option ℚ
  fat_100g : Option ℚ
  sodium_mg_100g : Option ℚ
  deriving DecidableEq, Repr

/-- `_fetch_details("")` short-circuits to an empty dict. -/
def emptyTbcaNutrients : TbcaNutrients :=
  ⟨none, none, none, none, none, none⟩

/-- The connector's environment: the search-listing request, the
detail-page requests, and the outcome of the local upsert attempt. -/
structure TbcaWorld where
  listing : String → ℕ → Except TbcaErr (List TbcaListing)
  details : String → Except TbcaErr TbcaNutrients
  upsertOutcome : Except TbcaErr ℕ

/-- One response item of `_to_response_items`: canonical per-100g shape
tagged "tbca_online", with kJ derived as kcal × 4.184 when kcal is a
number, and sugars/salt/glycemic index absent. -/
structure TbcaItem where
  id : String
  source : String
  name : String
  nutrients : Nutrients
  category : Option String
  deriving DecidableEq, Repr

/-- `_to_response_items` on one enriched listing. -/
def toResponseItem (p : TbcaListing × TbcaNutrients) : TbcaItem :=
  { id := p.1.id
    source := "tbca_online"
    name := p.1.name
    nutrients :=
      { energy_kcal := p.2.energy_kcal
        energy_kj := p.2.energy_kcal.map (fun v => v * kcalPerKj)
        carbohydrates := p.2.carbohydrates_100g
        proteins := p.2.proteins_100g
        fat := p.2.fat_100g
        fiber := p.2.fiber_100g
        sugars := none
        sodium := p.2.sodium_mg_100g }
    category := none }

/-- The dict returned by `search_foods` (the failure and not-found dicts
omit `sources`; that is modelled as the empty source list). -/
structure TbcaResult where
  items : List TbcaItem
  total_found : ℕ
  sources : List String
  search_time_ms : ℚ
  deriving DecidableEq, Repr

/-- Fetch the detail page of every listed candidate in order; the first
failing fetch aborts the whole loop (there is no per-item handler in the
source). -/
def fetchAll (w : TbcaWorld) :
    List TbcaListing → Except TbcaErr (List (TbcaListing × TbcaNutrients))
  | [] => Except.ok []
  | it :: rest => do
    let nut ← if it.url = "" then pure emptyTbcaNutrients else w.details it.url
    let tail ← fetchAll w rest
    pure ((it, nut) :: tail)

/-- The body of the `try` block of `search_foods`: listing, per-item
details, an upsert attempt whose own failure is swallowed by the inner
`try`, then the normalized response. -/
def searchFoodsBody (w : TbcaWorld) (term : String) (n : ℕ) :
    Except TbcaErr TbcaResult := do
  let base ← w.listing term n
  if base.isEmpty then
    pure ⟨[], 0, [], 0⟩
  else
    let enriched ← fetchAll w (base.take n)
    let _swallowed := w.upsertOutcome
    let resp := enriched.map toResponseItem
    pure ⟨resp, resp.length, ["tbca_online"], 0⟩

/-- `TBCAConnector.search_foods(term, page_size)`: the whole body runs
under a catch-all `except` that degrades every failure to the empty
result. -/
def searchFoods (w : TbcaWorld) (term : String) (n : ℕ) : TbcaResult :=
  match searchFoodsBody w term n with
  | Except.ok r => r
  | Except.error _ => ⟨[], 0, [], 0⟩

/-! ## Concrete example data

A loader state for the spec's end-to-end scenario: empty cache, empty
store, and a CSV dataset containing the rows "Arroz branco cozido" and
"Arroz integral cozido" (plus one non-matching row). -/

/-- The end-to-end scenario dataset file. -/
def e2eFile : CsvFile :=
  { headers := ["Codigo", "Alimento", "Energia (kcal)"]
    rows := [["001", "Arroz branco cozido", "128"],
             ["002", "Arroz integral cozido", "124"],
             ["003", "Feijao carioca", "76"]] }

/-- The end-to-end scenario loader state (empty cache and store, the
loader's default cache of TTL 600 and 1000 slots). -/
def e2eState : LoaderState :=
  { cache := { ttl := 600, maxItems := 1000, store := [] }
    db := []
    file := TacoFile.csv e2eFile }

/-! ## Theorems -/

/-- C2. The claim says `validate_portion_input` accepts exactly positive
values with units present in the conversion table, rejecting
`(10, "furlongs")`. The code rejects non-positive values and empty units,
but the `try` around `_convert_to_grams` can never fail — unknown units
silently fall back to factor 1 — so `(10, "furlongs")` is accepted even
though "furlongs" is absent from the table. This contradicts the inline
comment ("Verifica se a unidade é reconhecida") and the spec: the
recognition check is dead code. -/
theorem validate_accepts_unknown_unit :
    validatePortionInput 0 "g" = false ∧
    validatePortionInput 150 "ml" = true ∧
    validatePortionInput 10 "furlongs" = true ∧
    lookupTable (cleanUnit "furlongs") unitConversions = none := by
  refine ⟨?_, ?_, ?_, ?_⟩ <;> decide

/-- C3. `search_foods` never propagates an exception: it is a total
function of the oracle world, and whenever the body (listing request,
any detail-page fetch, any parse step) fails, the caller receives the
empty result with `total_found = 0`. -/
theorem tbca_failure_degrades_to_empty (w : TbcaWorld) (term : String) (n : ℕ) :
    searchFoodsBody w term n = Except.ok (searchFoods w term n) ∨
    ((searchFoods w term n).items = [] ∧ (searchFoods w term n).total_found = 0) := by
  cases h : searchFoodsBody w term n with
  | ok r => left; rw [searchFoods, h]
  | error e => right; rw [searchFoods, h]; exact ⟨rfl, rfl⟩

/-! ### Cache lemmas -/

lemma lookupA_replaceFirstA (s : List (String × CacheEntry)) (k : String)
    (e : CacheEntry) (h : (lookupA s k).isSome) :
    lookupA (replaceFirstA s k e) k = some e := by
  induction s with
  | nil => simp [lookupA] at h
  | cons p t ih =>
    obtain ⟨k0, e0⟩ := p
    by_cases hk : k0 = k
    · simp [replaceFirstA, lookupA, hk]
    · simp [replaceFirstA, lookupA, hk] at h ⊢
      exact ih h

lemma lookupA_append_single (s : List (String × CacheEntry)) (k : String)
    (e : CacheEntry) (h : lookupA s k = none) :
    lookupA (s ++ [(k, e)]) k = some e := by
  induction s with
  | nil => simp [lookupA]
  | cons p t ih =>
    obtain ⟨k0, e0⟩ := p
    by_cases hk : k0 = k
    · simp [lookupA, hk] at h
    · simp [lookupA, hk] at h ⊢
      exact ih h

lemma lookupA_insertA (s : List (String × CacheEntry)) (k : String)
    (e : CacheEntry) : lookupA (insertA s k e) k = some e := by
  rw [insertA]
  by_cases h : (lookupA s k).isSome
  · simp [h, lookupA_replaceFirstA s k e h]
  · simp only [h, if_false]
    exact lookupA_append_single s k e (by
      cases hl : lookupA s k
      · rfl
      · simp [hl] at h)

lemma cacheSet_ttl (c : Cache) (now : ℤ) (k : String) (v : SearchResult) :
    (cacheSet c now k v).ttl = c.ttl := rfl

lemma lookupA_cacheSet (c : Cache) (now : ℤ) (k : String) (v : SearchResult) :
    lookupA (cacheSet c now k v).store k = some (CacheEntry.mk v (now + c.ttl)) := by
  rw [cacheSet]
  exact lookupA_insertA _ k _

/-- A non-expired lookup is a hit that leaves the cache untouched. -/
lemma cacheGet_cacheSet_fresh (c : Cache) (now now2 : ℤ) (k : String)
    (v : SearchResult) (h : now2 ≤ now + c.ttl) :
    cacheGet (cacheSet c now k v) now2 k = (some v, cacheSet c now k v) := by
  rw [cacheGet, lookupA_cacheSet]
  simp only
  rw [if_neg (by simpa using not_lt.mpr h)]

lemma cacheGet_snd_ttl (c : Cache) (now : ℤ) (k : String) :
    (cacheGet c now k).2.ttl = c.ttl := by
  rw [cacheGet]
  cases lookupA c.store k with
  | none => rfl
  | some e =>
    by_cases h : now > e.expiresAt
    · simp [h]
    · simp [h]

/-- C4. If a `search(term₁, limit)` call at instant `t1` misses the cache,
then a second call with any term sharing the same normalized form
(`_clean_text(term₁) = _clean_text(term₂)`, hence the same cache key) and
the same limit, at any instant `t2` not past the entry written by the
first call (`t2 ≤ t1 + ttl`), returns exactly the first call's
SearchResult, leaves the whole loader state untouched, and performs zero
store queries, zero file scans and zero upserts, while the first call
performed exactly one store query. -/
theorem search_second_call_is_cached (st : LoaderState) (t1 t2 : ℤ)
    (term1 term2 : String) (n : ℕ)
    (hnorm : cleanText term1 = cleanText term2)
    (hmiss : (cacheGet st.cache t1 (searchKey term1 n)).1 = none)
    (hfresh : t2 ≤ t1 + st.cache.ttl) :
    search (search st t1 term1 n).2.1 t2 term2 n =
      ((search st t1 term1 n).1, (search st t1 term1 n).2.1, ⟨0, 0, 0⟩) ∧
    (search st t1 term1 n).2.2.dbq = 1 := by
  have hkey : searchKey term2 n = searchKey term1 n := by
    rw [searchKey, searchKey, hnorm]
  rcases hcg : cacheGet st.cache t1 (searchKey term1 n) with ⟨o, c'⟩
  have ho : o = none := by rw [hcg] at hmiss; exact hmiss
  subst ho
  have httl : c'.ttl = st.cache.ttl := by
    have h := cacheGet_snd_ttl st.cache t1 (searchKey term1 n)
    rw [hcg] at h
    exact h
  rcases hP : search st t1 term1 n with ⟨R, S, A⟩
  have hunf := hP
  rw [search, hcg] at hunf
  simp only [Prod.mk.injEq] at hunf
  obtain ⟨hR, hS, hA⟩ := hunf
  have hScache : S.cache = cacheSet c' t1 (searchKey term1 n) R := by
    rw [← hS, ← hR]
  have hhit : cacheGet S.cache t2 (searchKey term1 n) = (some R, S.cache) := by
    rw [hScache]
    exact cacheGet_cacheSet_fresh c' t1 t2 (searchKey term1 n) R (httl ▸ hfresh)
  constructor
  · show search S t2 term2 n = (R, S, ⟨0, 0, 0⟩)
    rw [search, hkey, hhit]
  · rw [← hA]

/-- C4 witness: the two-call scenario on the concrete end-to-end state at
instants 0 and 10, with distinct raw terms "Arroz" and "arroz" that share
the normalized form. -/
theorem search_second_call_is_cached_witness :
    cleanText "Arroz" = cleanText "arroz" ∧
    (cacheGet e2eState.cache 0 (searchKey "Arroz" 5)).1 = none ∧
    (search (search e2eState 0 "Arroz" 5).2.1 10 "arroz" 5 =
        ((search e2eState 0 "Arroz" 5).1, (search e2eState 0 "Arroz" 5).2.1,
          ⟨0, 0, 0⟩) ∧
      (search e2eState 0 "Arroz" 5).2.2.dbq = 1) :=
  ⟨by decide, by decide,
   search_second_call_is_cached e2eState 0 10 "Arroz" "arroz" 5 (by decide)
     (by decide) (by decide)⟩

/-! ### Scan length lemmas -/

lemma scanRows_length_le (cm : ColMap) (term : String) (n : ℕ) :
    ∀ rows acc, acc.length < n → (scanRows cm term n rows acc).length ≤ n := by
  intro rows
  induction rows with
  | nil => intro acc h; rw [scanRows]; exact le_of_lt h
  | cons row rest ih =>
    intro acc h
    rw [scanRows]
    split
    · exact ih acc h
    · split
      · exact ih acc h
      · dsimp only
        split
        · exact ih acc h
        · split
          · exact ih acc h
          · split
            · simp only [List.length_append, List.length_cons, List.length_nil]
              omega
            · next h4 =>
              refine ih _ ?_
              simp only [List.length_append, List.length_cons, List.length_nil] at h4 ⊢
              omega

lemma scanCsv_length_le (f : CsvFile) (term : String) (n : ℕ) (h : 0 < n) :
    (scanCsv f term n).length ≤ n := by
  rw [scanCsv]
  exact scanRows_length_le _ term n _ [] (by simpa using h)

lemma scanXlsx_length_le (rows : List (List (Option String))) (term : String)
    (n : ℕ) (h : 0 < n) : (scanXlsx rows term n).length ≤ n := by
  rw [scanXlsx]
  cases detectHeader rows with
  | none => simp
  | some p =>
    obtain ⟨i, headers⟩ := p
    simp only
    cases (mapHeaders headers).name_pt with
    | none => simp
    | some idx => exact scanRows_length_le _ term n _ [] (by simpa using h)

/-- C5. On a cache miss, the item list of the returned SearchResult never
exceeds the requested page size: the store query is capped at `limit` and
the file scan at the remaining count. -/
theorem search_item_count_capped (st : LoaderState) (t : ℤ) (term : String)
    (n : ℕ) (hmiss : (cacheGet st.cache t (searchKey term n)).1 = none) :
    (search st t term n).1.items.length ≤ n := by
  rcases hcg : cacheGet st.cache t (searchKey term n) with ⟨o, c'⟩
  have ho : o = none := by rw [hcg] at hmiss; exact hmiss
  subst ho
  rcases hP : search st t term n with ⟨R, S, A⟩
  rw [search, hcg] at hP
  simp only [Prod.mk.injEq] at hP
  obtain ⟨hR, _, _⟩ := hP
  rw [← hR]
  simp only [List.length_append, List.length_map]
  have htake :
      ((st.db.filter (fun r => ilikeMatch term r.name_pt)).take n).length ≤ n := by
    rw [List.length_take]
    omega
  split
  · next hlt =>
    split
    · next f heq =>
      have hscan := scanCsv_length_le f term
        (n - ((st.db.filter (fun r => ilikeMatch term r.name_pt)).take n).length)
        (by omega)
      dsimp only
      omega
    · next rows heq =>
      have hscan := scanXlsx_length_le rows term
        (n - ((st.db.filter (fun r => ilikeMatch term r.name_pt)).take n).length)
        (by omega)
      dsimp only
      omega
    · simp only [List.length_nil]
      omega
  · simp only [List.length_nil]
    omega

/-- C5 witness: the cap at the concrete end-to-end state. -/
theorem search_item_count_capped_witness :
    (cacheGet e2eState.cache 0 (searchKey "arroz" 5)).1 = none ∧
    (search e2eState 0 "arroz" 5).1.items.length ≤ 5 :=
  ⟨by decide, search_item_count_capped e2eState 0 "arroz" 5 (by decide)⟩

/-- C1 counterexample: in the spec's own end-to-end scenario (empty store,
two dataset rows matching "arroz", limit 5, cache miss) the store
contributes zero items and the file scan two, yet the returned sources
tag is "taco_db", not the claimed "taco_file": the code computes the tag
from the emptiness of the combined item list, after the file items were
merged in. -/
theorem sources_tag_counterexample :
    e2eState.db = [] ∧
    (search e2eState 0 "arroz" 5).1.total_found = 2 ∧
    (search e2eState 0 "arroz" 5).1.sources = ["taco_db"] ∧
    (search e2eState 0 "arroz" 5).1.sources ≠ ["taco_file"] := by
  refine ⟨rfl, ?_, ?_, ?_⟩ <;> decide

/-- C1 (amended). On a cache miss, the sources tag of the returned
SearchResult is "taco_file" exactly when the combined item list (store
hits plus file hits) is empty, and "taco_db" whenever it is non-empty —
regardless of whether the items came from the store or the file. -/
theorem sources_tag_reflects_item_emptiness (st : LoaderState) (t : ℤ)
    (term : String) (n : ℕ)
    (hmiss : (cacheGet st.cache t (searchKey term n)).1 = none) :
    ((search st t term n).1.items = [] →
      (search st t term n).1.sources = ["taco_file"]) ∧
    ((search st t term n).1.items ≠ [] →
      (search st t term n).1.sources = ["taco_db"]) := by
  rcases hcg : cacheGet st.cache t (searchKey term n) with ⟨o, c'⟩
  have ho : o = none := by rw [hcg] at hmiss; exact hmiss
  subst ho
  rcases hP : search st t term n with ⟨R, S, A⟩
  rw [search, hcg] at hP
  simp only [Prod.mk.injEq] at hP
  obtain ⟨hR, _, _⟩ := hP
  rw [← hR]
  dsimp only
  constructor
  · intro hempty
    rw [hempty, List.length_nil]
    simp
  · intro hne
    rw [if_pos (List.length_pos.mpr hne)]

/-- C1 witness: the amended tagging at the end-to-end state, where the
item list is non-empty. -/
theorem sources_tag_reflects_item_emptiness_witness :
    (cacheGet e2eState.cache 0 (searchKey "arroz" 5)).1 = none ∧
    (search e2eState 0 "arroz" 5).1.items ≠ [] ∧
    (search e2eState 0 "arroz" 5).1.sources = ["taco_db"] :=
  ⟨by decide, by decide,
   (sources_tag_reflects_item_emptiness e2eState 0 "arroz" 5 (by decide)).2
     (by decide)⟩

/-! ### Upsert lemmas -/

/-- A store row with the given name and no nutrient data. -/
def rowNamed (s : String) : FoodRow :=
  ⟨s, none, none, none, none, none, none, none, none, none, none⟩

lemma updateFirst_map_name (nm : String) (row : FoodRow) :
    ∀ db : List FoodRow,
      (updateFirst nm row db).map FoodRow.name_pt = db.map FoodRow.name_pt := by
  intro db
  induction db with
  | nil => rfl
  | cons r t ih =>
    rw [updateFirst]
    by_cases hm : nameMatches nm r
    · rw [if_pos hm]
      rfl
    · rw [if_neg hm, List.map_cons, List.map_cons, ih]

lemma updateFirst_length (nm : String) (row : FoodRow) (db : List FoodRow) :
    (updateFirst nm row db).length = db.length := by
  have h := congrArg List.length (updateFirst_map_name nm row db)
  simpa [List.length_map] using h

lemma find?_name_isSome_iff (nm : String) :
    ∀ db : List FoodRow,
      (db.find? (nameMatches nm)).isSome ↔ nm ∈ db.map FoodRow.name_pt := by
  intro db
  induction db with
  | nil => simp [List.find?]
  | cons r t ih =>
    by_cases hm : nameMatches nm r
    · have : r.name_pt = nm := by simpa [nameMatches] using hm
      simp [List.find?, hm, this]
    · have : ¬ r.name_pt = nm := by simpa [nameMatches] using hm
      simp only [List.find?, hm, List.map_cons, List.mem_cons]
      rw [ih]
      constructor
      · exact Or.inr
      · rintro (h | h)
        · exact absurd h.symm this
        · exact h

lemma names_mem_upsertRow (db : List FoodRow) (row : FoodRow) (x : String)
    (hx : x ∈ db.map FoodRow.name_pt) :
    x ∈ (upsertRow db row).map FoodRow.name_pt := by
  rw [upsertRow]
  split
  · exact hx
  · split
    · rw [updateFirst_map_name]
      exact hx
    · rw [List.map_append]
      exact List.mem_append_left _ hx

lemma upsertRow_nodup (db : List FoodRow) (row : FoodRow)
    (h : NamesUnique db) : NamesUnique (upsertRow db row) := by
  rw [upsertRow]
  split
  · exact h
  · split
    · rw [NamesUnique, updateFirst_map_name]
      exact h
    · next hns =>
      have hnm : row.name_pt ∉ db.map FoodRow.name_pt := by
        rw [← find?_name_isSome_iff]
        simpa using hns
      rw [NamesUnique, List.map_append]
      refine List.Nodup.append h (List.nodup_singleton _) ?_
      intro x hx hx2
      simp only [List.map_cons, List.map_nil, List.mem_singleton] at hx2
      exact hnm (hx2 ▸ hx)

lemma upsertRow_length_of_mem (db : List FoodRow) (row : FoodRow)
    (h : row.name_pt ∈ db.map FoodRow.name_pt ∨ row.name_pt = "") :
    (upsertRow db row).length = db.length := by
  rw [upsertRow]
  by_cases he : row.name_pt = ""
  · rw [if_pos he]
  · rw [if_neg he]
    rcases h with h | h
    · rw [if_pos ((find?_name_isSome_iff row.name_pt db).mpr h),
        updateFirst_length]
    · exact absurd h he

/-- C6 counterexample: a store satisfying normalized-name uniqueness, and
an upsert of a row whose name differs only in case, which the exact-name
match treats as new: afterwards two rows share the normalized name
"arroz", so the claimed invariant is violated by the write. -/
theorem normalized_uniqueness_counterexample :
    NormNamesUnique [rowNamed "arroz"] ∧
    upsertItems [rowNamed "arroz"] [rowNamed "Arroz"] =
      [rowNamed "arroz", rowNamed "Arroz"] ∧
    ¬ NormNamesUnique [rowNamed "arroz", rowNamed "Arroz"] := by
  refine ⟨?_, by decide, ?_⟩ <;> (unfold NormNamesUnique; decide)

/-- C6 (amended). The upsert preserves uniqueness by exact `name_pt` (the
actual column constraint), not by normalized name: on any store with
pairwise distinct exact names, any batch of rows leaves the names
pairwise distinct, and a batch made of rows whose exact names are already
present creates no additional rows. -/
theorem upsert_preserves_exact_name_uniqueness (rows : List FoodRow) :
    ∀ db : List FoodRow, NamesUnique db →
      NamesUnique (upsertItems db rows) ∧
      ((∀ r ∈ rows, r.name_pt ∈ db.map FoodRow.name_pt) →
        (upsertItems db rows).length = db.length) := by
  induction rows with
  | nil => exact fun db h => ⟨h, fun _ => rfl⟩
  | cons r rs ih =>
    intro db h
    have hstep : upsertItems db (r :: rs) = upsertItems (upsertRow db r) rs := rfl
    obtain ⟨ha, hb⟩ := ih (upsertRow db r) (upsertRow_nodup db r h)
    refine ⟨hstep ▸ ha, fun hall => ?_⟩
    have hmem : r.name_pt ∈ db.map FoodRow.name_pt :=
      hall r (List.mem_cons_self r rs)
    rw [hstep,
      hb (fun x hx => names_mem_upsertRow db r _ (hall x (List.mem_cons_of_mem r hx))),
      upsertRow_length_of_mem db r (Or.inl hmem)]

/-- C6 witness: idempotent re-upsert of an already present exact name. -/
theorem upsert_preserves_exact_name_uniqueness_witness :
    NamesUnique [rowNamed "arroz"] ∧
    (NamesUnique (upsertItems [rowNamed "arroz"] [rowNamed "arroz"]) ∧
      (upsertItems [rowNamed "arroz"] [rowNamed "arroz"]).length = 1) := by
  refine ⟨by unfold NamesUnique; decide, ?_⟩
  obtain ⟨h1, h2⟩ :=
    upsert_preserves_exact_name_uniqueness [rowNamed "arroz"] [rowNamed "arroz"]
      (by unfold NamesUnique; decide)
  exact ⟨h1, h2 (by decide)⟩

/-! ### Field overwrite lemmas -/

lemma find?_updateFirst (nm : String) (row : FoodRow) :
    ∀ db : List FoodRow, (db.find? (nameMatches nm)).isSome →
      ∃ r0, (updateFirst nm row db).find? (nameMatches nm) =
        some (overwriteFields r0 row) := by
  intro db
  induction db with
  | nil => intro h; simp [List.find?] at h
  | cons r t ih =>
    intro h
    by_cases hm : nameMatches nm r
    · refine ⟨r, ?_⟩
      rw [updateFirst, if_pos hm]
      have hm' : nameMatches nm (overwriteFields r row) = true := by
        simpa [nameMatches, overwriteFields] using hm
      simp [List.find?, hm']
    · rw [updateFirst, if_neg hm]
      have h' : (t.find? (nameMatches nm)).isSome := by
        simpa [List.find?, hm] using h
      obtain ⟨r0, hr0⟩ := ih h'
      refine ⟨r0, ?_⟩
      simp [List.find?, hm, hr0]

/-- C7. Upserting a row whose exact name matches an existing store record
overwrites every nutrient field of that record with the incoming value —
including `None`: after the upsert the stored record's ten data fields
all equal the incoming row's, so a sparse source can erase previously
known values. -/
theorem upsert_overwrites_every_field (db : List FoodRow) (row : FoodRow)
    (hname : row.name_pt ≠ "")
    (hex : (db.find? (nameMatches row.name_pt)).isSome) :
    ∃ r', (upsertRow db row).find? (nameMatches row.name_pt) = some r' ∧
      r'.category_pt = row.category_pt ∧
      r'.energy_kcal_100g = row.energy_kcal_100g ∧
      r'.energy_kj_100g = row.energy_kj_100g ∧
      r'.carbohydrates_100g = row.carbohydrates_100g ∧
      r'.proteins_100g = row.proteins_100g ∧
      r'.fat_100g = row.fat_100g ∧
      r'.fiber_100g = row.fiber_100g ∧
      r'.sugars_100g = row.sugars_100g ∧
      r'.sodium_mg_100g = row.sodium_mg_100g ∧
      r'.glycemic_index = row.glycemic_index := by
  rw [upsertRow, if_neg hname, if_pos hex]
  obtain ⟨r0, hr0⟩ := find?_updateFirst row.name_pt row db hex
  exact ⟨overwriteFields r0 row, hr0, rfl, rfl, rfl, rfl, rfl, rfl, rfl, rfl,
    rfl, rfl⟩

/-- C7 witness: a store holding "arroz" with a known kcal value, upserted
with a sparse "arroz" row whose fields are all null. -/
theorem upsert_overwrites_every_field_witness :
    (rowNamed "arroz").name_pt ≠ "" ∧
    (([{ rowNamed "arroz" with energy_kcal_100g := some 128 }].find?
        (nameMatches (rowNamed "arroz").name_pt)).isSome ∧
      ∃ r', (upsertRow [{ rowNamed "arroz" with energy_kcal_100g := some 128 }]
          (rowNamed "arroz")).find? (nameMatches (rowNamed "arroz").name_pt) =
            some r' ∧
        r'.category_pt = (rowNamed "arroz").category_pt ∧
        r'.energy_kcal_100g = (rowNamed "arroz").energy_kcal_100g ∧
        r'.energy_kj_100g = (rowNamed "arroz").energy_kj_100g ∧
        r'.carbohydrates_100g = (rowNamed "arroz").carbohydrates_100g ∧
        r'.proteins_100g = (rowNamed "arroz").proteins_100g ∧
        r'.fat_100g = (rowNamed "arroz").fat_100g ∧
        r'.fiber_100g = (rowNamed "arroz").fiber_100g ∧
        r'.sugars_100g = (rowNamed "arroz").sugars_100g ∧
        r'.sodium_mg_100g = (rowNamed "arroz").sodium_mg_100g ∧
        r'.glycemic_index = (rowNamed "arroz").glycemic_index) :=
  ⟨by decide,
   by decide,
   upsert_overwrites_every_field
     [{ rowNamed "arroz" with energy_kcal_100g := some 128 }]
     (rowNamed "arroz") (by decide) (by decide)⟩

/-! ### Header detection (C8) -/

lemma detectGo_fst : ∀ (rows : List (List (Option String))) (i : ℕ),
    (detectGo rows i).map Prod.fst = List.findIdx? isHeaderCandidate rows i := by
  intro rows
  induction rows with
  | nil => intro i; simp [detectGo, List.findIdx?_nil]
  | cons row rest ih =>
    intro i
    rw [detectGo, List.findIdx?_cons]
    by_cases hc : isHeaderCandidate row
    · simp [hc]
    · rw [if_neg hc, if_neg (by simpa using hc)]
      exact ih (i + 1)

lemma detectGo_headers : ∀ (rows : List (List (Option String))) (i j : ℕ)
    (hs : List String), detectGo rows i = some (j, hs) →
      i ≤ j ∧ hs = (rows.getD (j - i) []).map strCell := by
  intro rows
  induction rows with
  | nil => intro i j hs h; exact absurd h (by rw [detectGo]; exact Option.noConfusion)
  | cons row rest ih =>
    intro i j hs h
    rw [detectGo] at h
    by_cases hc : isHeaderCandidate row
    · rw [if_pos hc] at h
      obtain ⟨h1, h2⟩ := Prod.mk.injEq .. ▸ Option.some.injEq .. ▸ h
      subst h1
      refine ⟨le_refl i, ?_⟩
      rw [Nat.sub_self]
      exact h2.symm
    · rw [if_neg hc] at h
      obtain ⟨hle, heq⟩ := ih (i + 1) j hs h
      refine ⟨le_trans (Nat.le_succ i) hle, ?_⟩
      rw [heq]
      have hj : j - i = (j - (i + 1)) + 1 := by omega
      rw [hj]
      rfl

/-- A header row of the counterexample sheet that maps only the name
column (score 1). -/
def hdrPoor : List (Option String) :=
  [some "x", some "alimento", some "bbb", some "ccc"]

/-- A later header row that maps name, category, kcal and proteins
(score 4). -/
def hdrRich : List (Option String) :=
  [some "x", some "alimento", some "grupo", some "energia kcal",
   some "proteina"]

/-- C8 counterexample: in a sheet whose first candidate row maps only the
name column and whose second candidate row maps four canonical fields,
the scan selects the first (1-based row 1), not the higher-scoring later
candidate the claim requires. -/
theorem header_choice_counterexample :
    detectHeader [hdrPoor, hdrRich] =
      some (1, ["x", "alimento", "bbb", "ccc"]) ∧
    isHeaderCandidate hdrRich = true ∧
    mappedCount (mapHeaders (hdrRich.map strCell)) = 4 ∧
    mappedCount (mapHeaders (hdrPoor.map strCell)) = 1 := by
  refine ⟨?_, ?_, ?_, ?_⟩ <;> decide

/-- C8 (amended). The header row chosen by the XLSX scan is the first row
among the first 20 whose candidate test passes (at least four non-empty
cells and a mapped name column) — no score comparison happens — and when
no candidate passes, the scan aborts and contributes zero items. -/
theorem header_choice_first_candidate (rows : List (List (Option String)))
    (term : String) (n : ℕ) :
    (detectHeader rows).map Prod.fst =
      List.findIdx? isHeaderCandidate (rows.take 20) 1 ∧
    (∀ i hs, detectHeader rows = some (i, hs) →
      1 ≤ i ∧ hs = ((rows.take 20).getD (i - 1) []).map strCell) ∧
    (detectHeader rows = none → scanXlsx rows term n = []) := by
  refine ⟨?_, ?_, ?_⟩
  · rw [detectHeader, detectGo_fst]
  · intro i hs h
    rw [detectHeader] at h
    exact detectGo_headers (rows.take 20) 1 i hs h
  · intro h
    rw [scanXlsx, h]

/-- C8 witness: a sheet with no candidate row yields no header and no
items. -/
theorem header_choice_first_candidate_witness :
    detectHeader ([[some "x"]] : List (List (Option String))) = none ∧
    scanXlsx [[some "x"]] "arroz" 3 = [] :=
  ⟨by decide,
   (header_choice_first_candidate [[some "x"]] "arroz" 3).2.2 (by decide)⟩

/-! ### Portion linearity (C9) -/

lemma abs_round2_two_mul_sub (v : ℚ) :
    |round2 (v * 2) - 2 * round2 (v * 1)| ≤ 1 / 100 := by
  have h1 : |100 * (v * 2) - ((round (100 * (v * 2)) : ℤ) : ℚ)| ≤ 1 / 2 :=
    abs_sub_round _
  have h2 : |100 * (v * 1) - ((round (100 * (v * 1)) : ℤ) : ℚ)| ≤ 1 / 2 :=
    abs_sub_round _
  set a : ℤ := round (100 * (v * 2)) with ha
  set b : ℤ := round (100 * (v * 1)) with hb
  have key : |a - 2 * b| ≤ 1 := by
    have hq : |(a : ℚ) - 2 * (b : ℚ)| ≤ 3 / 2 := by
      have hsplit : (a : ℚ) - 2 * (b : ℚ) =
          -((100 * (v * 2) - (a : ℚ)) - 2 * (100 * (v * 1) - (b : ℚ))) := by
        ring
      rw [hsplit, abs_neg]
      calc |(100 * (v * 2) - (a : ℚ)) - 2 * (100 * (v * 1) - (b : ℚ))|
          ≤ |100 * (v * 2) - (a : ℚ)| + |2 * (100 * (v * 1) - (b : ℚ))| :=
            abs_sub _ _
        _ = |100 * (v * 2) - (a : ℚ)| + 2 * |100 * (v * 1) - (b : ℚ)| := by
            rw [abs_mul]
            norm_num
        _ ≤ 1 / 2 + 2 * (1 / 2) := by linarith
        _ = 3 / 2 := by norm_num
    have hcast : |((a - 2 * b : ℤ) : ℚ)| ≤ 3 / 2 := by push_cast; exact hq
    have hlt : |((a - 2 * b : ℤ) : ℚ)| < 2 := lt_of_le_of_lt hcast (by norm_num)
    have : |a - 2 * b| < 2 := by exact_mod_cast hlt
    omega
  have heq : round2 (v * 2) - 2 * round2 (v * 1) = ((a - 2 * b : ℤ) : ℚ) / 100 := by
    rw [round2, round2, ← ha, ← hb]
    push_cast
    ring
  rw [heq, abs_div, abs_of_pos (show (0 : ℚ) < 100 by norm_num)]
  have hcast : |((a - 2 * b : ℤ) : ℚ)| ≤ 1 := by exact_mod_cast key
  linarith

/-- Rounded linearity of one scaled field: the value at factor 2 is within
0.01 of twice the value at factor 1 (missing stays missing). -/
def linRel (x y : Option ℚ) : Prop :=
  match x, y with
  | some a, some b => |a - 2 * b| ≤ 1 / 100
  | none, none => True
  | _, _ => False

lemma linRel_scaleField (x : Option ℚ) :
    linRel (scaleField 2 x) (scaleField 1 x) := by
  cases x with
  | none => trivial
  | some v => exact abs_round2_two_mul_sub v

lemma lookupTable_g : lookupTable (cleanUnit "g") unitConversions = some 1 := by
  decide

lemma lookupTable_50g : lookupTable (cleanUnit "50g") unitConversions = some 1 := by
  decide

lemma factor_g_100g (v : ℚ) : calcConversionFactor v "g" "100g" = v / 100 := by
  rw [calcConversionFactor, if_pos rfl, convertToGrams, lookupTable_g]
  simp

lemma calcNutrients_non_kcal (base : Nutrients) (pv : ℚ) (pu bu : String) :
    (calculatePortionNutrients base pv pu bu).energy_kj =
        scaleField (calcConversionFactor pv pu bu) base.energy_kj ∧
      (calculatePortionNutrients base pv pu bu).carbohydrates =
        scaleField (calcConversionFactor pv pu bu) base.carbohydrates ∧
      (calculatePortionNutrients base pv pu bu).proteins =
        scaleField (calcConversionFactor pv pu bu) base.proteins ∧
      (calculatePortionNutrients base pv pu bu).fat =
        scaleField (calcConversionFactor pv pu bu) base.fat ∧
      (calculatePortionNutrients base pv pu bu).fiber =
        scaleField (calcConversionFactor pv pu bu) base.fiber ∧
      (calculatePortionNutrients base pv pu bu).sugars =
        scaleField (calcConversionFactor pv pu bu) base.sugars ∧
      (calculatePortionNutrients base pv pu bu).sodium =
        scaleField (calcConversionFactor pv pu bu) base.sodium := by
  rw [calculatePortionNutrients]
  dsimp only
  split <;> exact ⟨rfl, rfl, rfl, rfl, rfl, rfl, rfl⟩

/-- C9 (amended). For every nutrient field other than `energy_kcal`,
scaling 200 g against base "100g" is within 0.01 of twice the result of
scaling 100 g (missing fields stay missing). The exception is forced by
the post-scaling kJ-to-kcal derivation, which can overwrite a kcal value
that rounds to zero at one scale but not the other. -/
theorem portion_linearity_non_kcal (base : Nutrients) :
    linRel (calculatePortionNutrients base 200 "g" "100g").energy_kj
        (calculatePortionNutrients base 100 "g" "100g").energy_kj ∧
      linRel (calculatePortionNutrients base 200 "g" "100g").carbohydrates
        (calculatePortionNutrients base 100 "g" "100g").carbohydrates ∧
      linRel (calculatePortionNutrients base 200 "g" "100g").proteins
        (calculatePortionNutrients base 100 "g" "100g").proteins ∧
      linRel (calculatePortionNutrients base 200 "g" "100g").fat
        (calculatePortionNutrients base 100 "g" "100g").fat ∧
      linRel (calculatePortionNutrients base 200 "g" "100g").fiber
        (calculatePortionNutrients base 100 "g" "100g").fiber ∧
      linRel (calculatePortionNutrients base 200 "g" "100g").sugars
        (calculatePortionNutrients base 100 "g" "100g").sugars ∧
      linRel (calculatePortionNutrients base 200 "g" "100g").sodium
        (calculatePortionNutrients base 100 "g" "100g").sodium := by
  have h200 : calcConversionFactor 200 "g" "100g" = 2 := by
    rw [factor_g_100g]
    norm_num
  have h100 : calcConversionFactor 100 "g" "100g" = 1 := by
    rw [factor_g_100g]
    norm_num
  obtain ⟨e1, e2, e3, e4, e5, e6, e7⟩ := calcNutrients_non_kcal base 200 "g" "100g"
  obtain ⟨f1, f2, f3, f4, f5, f6, f7⟩ := calcNutrients_non_kcal base 100 "g" "100g"
  rw [e1, e2, e3, e4, e5, e6, e7, f1, f2, f3, f4, f5, f6, f7, h200, h100]
  exact ⟨linRel_scaleField _, linRel_scaleField _, linRel_scaleField _,
    linRel_scaleField _, linRel_scaleField _, linRel_scaleField _,
    linRel_scaleField _⟩

/-- The nutrient map of the C9 counterexample: a tiny but non-null kcal
value next to a kJ value of 10. -/
def cexBase : Nutrients :=
  { energy_kcal := some (13 / 5000), energy_kj := some 10,
    carbohydrates := none, proteins := none, fat := none, fiber := none,
    sugars := none, sodium := none }

/-- C9 counterexample: with `energy_kcal = 0.0026` and `energy_kj = 10`,
scaling to 200 g yields kcal 0.01, but scaling to 100 g rounds kcal to
zero, which is falsy, so the kJ-to-kcal derivation overwrites it with
2.39; the claimed linearity bound |0.01 − 2·2.39| ≤ 0.01 fails. -/
theorem portion_linearity_counterexample :
    (calculatePortionNutrients cexBase 200 "g" "100g").energy_kcal =
      some (1 / 100) ∧
    (calculatePortionNutrients cexBase 100 "g" "100g").energy_kcal =
      some (239 / 100) ∧
    ¬ |(1 : ℚ) / 100 - 2 * (239 / 100)| ≤ 1 / 100 := by
  have h200 : calcConversionFactor 200 "g" "100g" = 2 := by
    rw [factor_g_100g]
    norm_num
  have h100 : calcConversionFactor 100 "g" "100g" = 1 := by
    rw [factor_g_100g]
    norm_num
  have r1 : round2 ((13 : ℚ) / 5000 * 2) = 1 / 100 := by
    rw [round2]
    norm_num [round_eq]
  have r2 : round2 ((10 : ℚ) * 2) = 20 := by
    rw [round2]
    norm_num [round_eq]
  have r3 : round2 ((13 : ℚ) / 5000 * 1) = 0 := by
    rw [round2]
    norm_num [round_eq]
  have r4 : round2 ((10 : ℚ) * 1) = 10 := by
    rw [round2]
    norm_num [round_eq]
  have r5 : round2 ((10 : ℚ) / kcalPerKj) = 239 / 100 := by
    rw [round2, kcalPerKj]
    norm_num [round_eq]
  refine ⟨?_, ?_, ?_⟩
  · rw [calculatePortionNutrients, h200]
    simp only [cexBase, scaleField, Option.map_some']
    rw [r1, r2]
    rw [if_neg (by norm_num [truthyQ])]
  · rw [calculatePortionNutrients, h100]
    simp only [cexBase, scaleField, Option.map_some']
    rw [r3, r4]
    rw [if_pos (by norm_num [truthyQ])]
    simp only [Option.map_some']
    rw [r5]
  · rw [show (1 : ℚ) / 100 - 2 * (239 / 100) = -(477 / 100) by norm_num,
      abs_neg, abs_of_nonneg (show (0 : ℚ) ≤ 477 / 100 by norm_num)]
    norm_num

/-! ### Conversion factor semantics (C10) -/

/-- C10. In the conversion-factor computation only the exact base-unit
string "100g" is treated as 100 grams: every other base unit is evaluated
as 1 of the digit-stripped unit ("50g" becomes one gram, so the factor
for a portion in grams is the portion mass itself), and any unit whose
digit-stripped form is absent from the table silently converts with
factor 1 instead of raising. -/
theorem conversion_factor_digit_stripping :
    (∀ (v : ℚ) (pu bu : String), bu ≠ "100g" →
      calcConversionFactor v pu bu = convertToGrams v pu / convertToGrams 1 bu) ∧
    (∀ (v : ℚ) (u : String),
      lookupTable (cleanUnit u) unitConversions = none → convertToGrams v u = v) ∧
    convertToGrams 1 "50g" = 1 ∧
    (∀ v : ℚ, calcConversionFactor v "g" "50g" = v) ∧
    calcConversionFactor 100 "g" "100g" = 1 := by
  refine ⟨?_, ?_, ?_, ?_, ?_⟩
  · intro v pu bu h
    rw [calcConversionFactor, if_neg h]
  · intro v u h
    rw [convertToGrams, h]
    simp
  · rw [convertToGrams, lookupTable_50g]
    simp
  · intro v
    rw [calcConversionFactor, if_neg (by decide), convertToGrams, convertToGrams,
      lookupTable_50g, lookupTable_g]
    simp
  · rw [factor_g_100g]
    norm_num

/-- C10 witness: the digit-stripped base "50g" and the unknown unit
"furlongs" at concrete inputs. -/
theorem conversion_factor_digit_stripping_witness :
    ("50g" ≠ "100g") ∧
    calcConversionFactor 5 "g" "50g" = convertToGrams 5 "g" / convertToGrams 1 "50g" ∧
    lookupTable (cleanUnit "furlongs") unitConversions = none ∧
    convertToGrams 7 "furlongs" = 7 :=
  ⟨by decide,
   conversion_factor_digit_stripping.1 5 "g" "50g" (by decide),
   by decide,
   conversion_factor_digit_stripping.2.1 7 "furlongs" (by decide)⟩

end Melitus
